import Mathlib

/-!
Shallow embedding of the SoulSketch memory pack validator
(src/tools/memory_pack_validator.py) and proofs about its claims.

Python strings are modelled as Lean strings; the Python string methods
used by the validator (strip, split, splitlines, lower, substring
membership) are implemented below on the underlying character lists.
The standard library call json.loads is not part of the repository, so
it is abstracted as an oracle parameter of type String to Option String:
none means the line parses as a single JSON value, some msg means the
parse raises JSONDecodeError with message msg.  The filesystem is
modelled as a partial map from file names to file entries; the stat and
read calls on a file can fail, which models the exceptions the Python
code catches.  The timestamp and pack path fields of the report, and the
console printing, are environment output with no validation content and
are omitted from the model.
-/

namespace SoulSketch

/-- Python whitespace, as recognised by str.strip and str.split. -/
def isPySpace (c : Char) : Bool :=
  c == ' ' || c == '\t' || c == '\n' || c == '\r' || c == '\x0b' || c == '\x0c'

/-- str.strip on a character list: drop leading and trailing whitespace. -/
def pyStripL (l : List Char) : List Char :=
  ((l.dropWhile isPySpace).reverse.dropWhile isPySpace).reverse

/-- Python str.strip. -/
def pyStrip (s : String) : String := ⟨pyStripL s.data⟩

/-- Python split on a newline character, keeping empty parts; on the empty
list it yields one empty part, as the empty string splits in Python. -/
def splitOnNlL : List Char → List (List Char)
  | [] => [[]]
  | c :: rest =>
    let r := splitOnNlL rest
    if c == '\n' then [] :: r
    else
      match r with
      | [] => [[c]]
      | h :: t => (c :: h) :: t

/-- Python content.split applied with a newline separator. -/
def splitNl (s : String) : List String := (splitOnNlL s.data).map (fun l => ⟨l⟩)

/-- Count the words as Python str.split with no argument does: maximal runs
of non-whitespace characters. -/
def wordsCountAux : List Char → Bool → Nat
  | [], inWord => if inWord then 1 else 0
  | c :: rest, inWord =>
    if isPySpace c then (if inWord then 1 else 0) + wordsCountAux rest false
    else wordsCountAux rest true

/-- Python len of content.split with no argument. -/
def pyWordCount (s : String) : Nat := wordsCountAux s.data false

/-- Python len of content.splitlines for content free of carriage returns:
the number of parts of a newline split, counting no part after a trailing
newline, and zero for the empty string. -/
def pyLineCount (s : String) : Nat :=
  match s.data with
  | [] => 0
  | c :: rest =>
    let parts := splitOnNlL (c :: rest)
    if parts.getLast? == some [] then parts.length - 1 else parts.length

/-- Drop the leading hash marks of a line. -/
def dropHashes (l : List Char) : List Char := l.dropWhile (fun c => c == '#')

/-- The findall scan of the multiline header pattern, as an automaton
over the newline-split lines of the content.  The pattern asks for a
line start, one or more hash marks, one or more whitespace characters
and then at least one further character up to a line end.  Because the
whitespace class also matches newlines, a match begun on a line whose
remainder after the hash marks is all whitespace continues across the
following all-whitespace lines and completes on the first line holding a
non-whitespace character; the flag records that a match is pending this
way.  When the input ends inside the pending whitespace run, the match
succeeds exactly when the final line is a nonempty whitespace line, the
dot of the pattern then matching trailing non-newline whitespace; on a
single line this needs at least two whitespace characters after the hash
marks.  Matches are counted without overlap, scanning resuming after the
line on which a match completes. -/
def scanHeaderLines : Bool → List (List Char) → Nat
  | _, [] => 0
  | true, line :: rest =>
    if (line.dropWhile isPySpace).isEmpty then
      match rest with
      | [] => if line.isEmpty then 0 else 1
      | _ :: _ => scanHeaderLines true rest
    else 1 + scanHeaderLines false rest
  | false, line :: rest =>
    match line with
    | '#' :: _ =>
      let after := dropHashes line
      let w1 := after.takeWhile isPySpace
      let r1 := after.dropWhile isPySpace
      if !r1.isEmpty then
        if !w1.isEmpty then 1 + scanHeaderLines false rest
        else scanHeaderLines false rest
      else
        match rest with
        | [] => if 2 ≤ w1.length then 1 else 0
        | _ :: _ => scanHeaderLines true rest
    | _ => scanHeaderLines false rest

/-- The header count of the markdown check: the number of matches the
findall over the multiline header pattern yields on the content. -/
def headerCount (s : String) : Nat :=
  scanHeaderLines false (splitOnNlL s.data)

/-- ASCII lowercasing, the fragment of str.lower the validator relies on. -/
def asciiLower (c : Char) : Char :=
  if 'A' ≤ c && c ≤ 'Z' then Char.ofNat (c.toNat + 32) else c

/-- Lowercase a character list. -/
def lowerL (l : List Char) : List Char := l.map asciiLower

/-- Whether the first list starts the second. -/
def startsWithL : List Char → List Char → Bool
  | [], _ => true
  | _ :: _, [] => false
  | p :: ps, c :: cs => p == c && startsWithL ps cs

/-- Whether the first list occurs inside the second. -/
def hasSubL (pat : List Char) : List Char → Bool
  | [] => pat.isEmpty
  | c :: rest => startsWithL pat (c :: rest) || hasSubL pat rest

/-- The Python membership test needle.lower() in haystack.lower(). -/
def containsLower (needle hay : String) : Bool :=
  hasSubL (lowerL needle.data) (lowerL hay.data)

/-- Python startswith with a hash argument. -/
def startsWithHash (s : String) : Bool :=
  match s.data with
  | c :: _ => c == '#'
  | [] => false

/-- Python endswith with a suffix argument. -/
def strEndsWith (suf s : String) : Bool :=
  startsWithL suf.data.reverse s.data.reverse

/-- What the validator observes about one file on disk.  statRes bundles
the is_file and stat size calls, readRes the read_text call; an error
value carries the message of the exception the Python code catches. -/
structure FileEntry where
  statRes : Except String (Bool × Nat)
  readRes : Except String String

/-- The required_files table of the validator, in its insertion order. -/
def required_files : List (String × String) :=
  [("persona.md", "Core identity and self-understanding"),
   ("relationship_dynamics.md", "Human bonds and collaborative rapport"),
   ("technical_domains.md", "Expertise, preferences, and knowledge base"),
   ("stylistic_voice.md", "Communication patterns and signature style"),
   ("runtime_observations.jsonl", "Living memory stream and insights")]

/-- One entry of the file_structure mapping of the report. -/
structure FileResult where
  existsB : Bool
  readable : Bool
  size_bytes : Nat
  description : String
  error : Option String
deriving DecidableEq

/-- The file_structure entry computed for one required file. -/
def fileResultFor (entry? : Option FileEntry) (desc : String) : FileResult :=
  match entry? with
  | none =>
    { existsB := false, readable := false, size_bytes := 0,
      description := desc, error := none }
  | some entry =>
    match entry.statRes with
    | .ok isfSz =>
      { existsB := true, readable := isfSz.1, size_bytes := isfSz.2,
        description := desc, error := none }
    | .error e =>
      { existsB := true, readable := false, size_bytes := 0,
        description := desc, error := some e }

/-- Whether one required file leaves the all_files_valid flag true: the
flag drops only when the file is missing or a stat call raises. -/
def fileOkFlag (entry? : Option FileEntry) : Bool :=
  match entry? with
  | none => false
  | some entry =>
    match entry.statRes with
    | .ok _ => true
    | .error _ => false

/-- The _validate_file_structure pass: the per-file results in table
order, and the all_files_valid flag. -/
def validate_file_structure (p : String → Option FileEntry) :
    List (String × FileResult) × Bool :=
  (required_files.map (fun nd => (nd.1, fileResultFor (p nd.1) nd.2)),
   required_files.all (fun nd => fileOkFlag (p nd.1)))

/-- One entry of the content_validation mapping.  The Python dictionaries
carry a warnings and a metrics key only on the parse path and an error
key only on failures; absent keys are modelled by an empty list and none,
which is how the rest of the code reads them back. -/
structure ContentValidation where
  valid : Bool
  warnings : List String
  metrics : List (String × Nat)
  error : Option String
deriving DecidableEq

/-- The warning the markdown check emits when the stripped content does
not start with a hash mark. -/
def headerWarnings (content : String) : List String :=
  if startsWithHash (pyStrip content) = true then [] else ["Missing main header"]

/-- The required topic list of the persona document check. -/
def personaSections : List String :=
  ["Identity", "Tone", "Behavior", "Self-Understanding"]

/-- The file-specific warnings of _validate_markdown_structure. -/
def specificWarnings (filename content : String) : List String :=
  if filename == "persona.md" then
    (personaSections.filter (fun sec => !(containsLower sec content))).map
      (fun sec => "Missing recommended section: " ++ sec)
  else if filename == "relationship_dynamics.md" then
    if containsLower "john" content = true then []
    else ["No reference to primary collaborator John"]
  else if filename == "technical_domains.md" then
    if pyWordCount content < 50 then ["Technical domains seem underdeveloped"]
    else []
  else []

/-- The metrics dictionary of the markdown check, in insertion order. -/
def mdMetrics (content : String) : List (String × Nat) :=
  [("header_count", headerCount content),
   ("word_count", pyWordCount content),
   ("line_count", pyLineCount content)]

/-- _validate_markdown_structure: the valid flag is set once and no
branch writes to it again. -/
def validate_markdown_structure (filename content : String) : ContentValidation :=
  { valid := true,
    warnings := headerWarnings content ++ specificWarnings filename content,
    metrics := mdMetrics content,
    error := none }

/-- The abstraction of json.loads applied to one line: none when the line
parses as a single JSON value, some msg for the exception message. -/
abbrev JsonOracle := String → Option String

/-- The loop of _validate_jsonl_structure over the lines of the stripped
content, carrying the 0-based index: returns the count of lines that
parsed and the warning list in emission order.  Blank lines are skipped
without touching either. -/
def jsonlScan (j : JsonOracle) : List String → Nat → Nat × List String
  | [], _ => (0, [])
  | line :: rest, i =>
    if (pyStrip line).data.isEmpty then jsonlScan j rest (i + 1)
    else
      match j line with
      | none =>
        let r := jsonlScan j rest (i + 1)
        (r.1 + 1, r.2)
      | some msg =>
        let r := jsonlScan j rest (i + 1)
        (r.1, ("Invalid JSON on line " ++ toString (i + 1) ++ ": " ++ msg) :: r.2)

/-- _validate_jsonl_structure: splits the stripped content on newlines,
scans every line, and derives the metrics; invalid_lines is the total
line count minus the count of lines that parsed, and a positive value
flips the valid flag and sets the error message. -/
def validate_jsonl_structure (j : JsonOracle) (content : String) : ContentValidation :=
  let lines := splitNl (pyStrip content)
  let scan := jsonlScan j lines 0
  let invalidCount := lines.length - scan.1
  { valid := invalidCount == 0,
    warnings := scan.2,
    metrics := [("total_lines", lines.length),
                ("valid_json_lines", scan.1),
                ("invalid_lines", invalidCount)],
    error := if invalidCount > 0 then some (toString invalidCount ++ " invalid JSON lines")
             else none }

/-- The content validation of one existing file: a read failure is
captured as an invalid entry carrying the message, otherwise the file is
dispatched on its extension. -/
def contentValidationFor (j : JsonOracle) (filename : String) (entry : FileEntry) :
    ContentValidation :=
  match entry.readRes with
  | .error e => { valid := false, warnings := [], metrics := [], error := some e }
  | .ok content =>
    if strEndsWith ".md" filename = true then
      validate_markdown_structure filename content
    else if strEndsWith ".jsonl" filename = true then
      validate_jsonl_structure j content
    else { valid := false, warnings := [], metrics := [], error := some "Unknown file type" }

/-- _validate_content_structure: missing files are skipped, every other
required file contributes one entry in table order, and the
all_content_valid flag records whether every produced entry is valid. -/
def validate_content_structure (j : JsonOracle) (p : String → Option FileEntry) :
    List (String × ContentValidation) × Bool :=
  (required_files.filterMap
     (fun nd => (p nd.1).map (fun e => (nd.1, contentValidationFor j nd.1 e))),
   required_files.all (fun nd =>
     match p nd.1 with
     | none => true
     | some e => (contentValidationFor j nd.1 e).valid))

/-- _validate_cross_references: a fixed result and an always-true flag. -/
def validate_cross_references : (String × String) × Bool :=
  (("basic_check_passed", "Advanced cross-reference validation not yet implemented"),
   true)

/-- The first loop of _generate_recommendations: a note for every file
whose recorded size is below 100 bytes, in table order. -/
def sizeRecs : List (String × FileResult) → List String
  | [] => []
  | (n, fr) :: rest =>
    if fr.size_bytes < 100 then
      ("Consider expanding " ++ n ++ " - currently very brief") :: sizeRecs rest
    else sizeRecs rest

/-- The second loop of _generate_recommendations: every warning of every
content validation entry, prefixed by its file name, in order. -/
def warnRecs : List (String × ContentValidation) → List String
  | [] => []
  | (n, cv) :: rest => cv.warnings.map (fun w => n ++ ": " ++ w) ++ warnRecs rest

/-- _generate_recommendations: both loops append to one list. -/
def generate_recommendations (fs : List (String × FileResult))
    (cv : List (String × ContentValidation)) : List String :=
  sizeRecs fs ++ warnRecs cv

/-- The validation report, less the timestamp and path fields. -/
structure Report where
  overall_status : String
  file_structure : List (String × FileResult)
  content_validation : List (String × ContentValidation)
  cross_references : String × String
  recommendations : List String
deriving DecidableEq

/-- validate_all: runs the three passes, generates the recommendations,
and derives the overall status from the three pass flags. -/
def validate_all (j : JsonOracle) (p : String → Option FileEntry) : Report :=
  let fs := validate_file_structure p
  let cv := validate_content_structure j p
  let xr := validate_cross_references
  { overall_status :=
      if fs.2 && cv.2 && xr.2 then "VALID"
      else if fs.2 && cv.2 then "VALID_WITH_WARNINGS"
      else "INVALID",
    file_structure := fs.1,
    content_validation := cv.1,
    cross_references := xr.1,
    recommendations := generate_recommendations fs.1 cv.1 }

/-- The pack as the second run of main sees it: the report file written
by the first run is present next to the artifacts. -/
def packWithReportFile (p : String → Option FileEntry) (e : FileEntry) :
    String → Option FileEntry :=
  fun n => if n = "validation_results.json" then some e else p n

/-- The recommendation list as the specification words it: one note for
every required artifact whose recorded size is under 100 bytes, in
artifact enumeration order, followed by every warning message of every
content validation entry, in artifact-then-warning order, without
deduplication. -/
def recommendationsSpec (r : Report) : List String :=
  (r.file_structure.filter (fun x => decide (x.2.size_bytes < 100))).map
    (fun x => "Consider expanding " ++ x.1 ++ " - currently very brief")
  ++ r.content_validation.flatMap (fun x => x.2.warnings.map (fun w => x.1 ++ ": " ++ w))

/-- A pack matching the all-valid scenario except that the technical
domains document has exactly 10 words: every artifact exists, stats and
reads succeed, the persona document holds the four required topics, the
relationship document mentions the primary collaborator, the event log
is one valid record, and every recorded size is at least 100 bytes. -/
def c1pack : String → Option FileEntry := fun n =>
  if n = "persona.md" then
    some ⟨.ok (true, 500), .ok "# Persona\nIdentity, Tone, Behavior, Self-Understanding."⟩
  else if n = "relationship_dynamics.md" then
    some ⟨.ok (true, 400), .ok "# Relationships\nJohn is the primary collaborator."⟩
  else if n = "technical_domains.md" then
    some ⟨.ok (true, 300), .ok "# Tech\nonly nine words are present in this file"⟩
  else if n = "stylistic_voice.md" then
    some ⟨.ok (true, 200), .ok "# Voice\nwarm and precise."⟩
  else if n = "runtime_observations.jsonl" then
    some ⟨.ok (true, 150), .ok "{}"⟩
  else none

/-- A pack whose persona document exists but cannot be read, while the
event log exists and reads fine; the other artifacts are absent. -/
def c9pack : String → Option FileEntry := fun n =>
  if n = "persona.md" then some ⟨.ok (true, 120), .error "Permission denied"⟩
  else if n = "runtime_observations.jsonl" then some ⟨.ok (true, 80), .ok "{}"⟩
  else none

/-- A pack holding only the event log; the persona document is absent. -/
def c10pack : String → Option FileEntry := fun n =>
  if n = "runtime_observations.jsonl" then some ⟨.ok (true, 200), .ok "{}"⟩
  else none

/-- The missing-main-header message is never among the file-specific
warnings, whose messages are all different strings. -/
lemma mainHeaderMsg_not_specific (filename content : String) :
    "Missing main header" ∉ specificWarnings filename content := by
  intro hmem
  unfold specificWarnings at hmem
  split_ifs at hmem
  · obtain ⟨sec, hsec, heq⟩ := List.mem_map.mp hmem
    have hs : sec ∈ personaSections := List.mem_of_mem_filter hsec
    fin_cases hs <;> exact absurd heq (by decide)
  · exact List.not_mem_nil _ hmem
  · rw [List.mem_singleton] at hmem
    exact absurd hmem (by decide)
  · rw [List.mem_singleton] at hmem
    exact absurd hmem (by decide)
  · exact List.not_mem_nil _ hmem
  · exact List.not_mem_nil _ hmem

/-- A file whose structure entry shows it existing and readable left the
all-files-valid flag untouched: existence rules out the missing branch
and readability rules out the branch that catches a stat failure. -/
lemma fileOkFlag_of_result (entry? : Option FileEntry) (d : String)
    (h1 : (fileResultFor entry? d).existsB = true)
    (h2 : (fileResultFor entry? d).readable = true) :
    fileOkFlag entry? = true := by
  cases entry? with
  | none => simp [fileResultFor] at h1
  | some entry =>
    cases hs : entry.statRes with
    | ok v => simp [fileOkFlag, hs]
    | error msg => simp [fileResultFor, hs] at h2

/-- The first recommendation loop is the filter-then-map of the spec. -/
lemma sizeRecs_eq (l : List (String × FileResult)) :
    sizeRecs l = (l.filter (fun x => decide (x.2.size_bytes < 100))).map
      (fun x => "Consider expanding " ++ x.1 ++ " - currently very brief") := by
  induction l with
  | nil => rfl
  | cons a rest ih =>
    obtain ⟨n, fr⟩ := a
    by_cases hlt : fr.size_bytes < 100
    · simp [sizeRecs, hlt, ih]
    · simp [sizeRecs, hlt, ih]

/-- The second recommendation loop is the flattening of the spec. -/
lemma warnRecs_eq (l : List (String × ContentValidation)) :
    warnRecs l = l.flatMap (fun x => x.2.warnings.map (fun w => x.1 ++ ": " ++ w)) := by
  induction l with
  | nil => rfl
  | cons a rest ih =>
    obtain ⟨n, cv⟩ := a
    simp [warnRecs, ih]

/-- Validation reads the pack only at the five required names. -/
lemma validate_all_congr (j : JsonOracle) (p1 p2 : String → Option FileEntry)
    (h : ∀ nd ∈ required_files, p1 nd.1 = p2 nd.1) :
    validate_all j p1 = validate_all j p2 := by
  have h1 := h ("persona.md", "Core identity and self-understanding") (by simp [required_files])
  have h2 := h ("relationship_dynamics.md", "Human bonds and collaborative rapport")
    (by simp [required_files])
  have h3 := h ("technical_domains.md", "Expertise, preferences, and knowledge base")
    (by simp [required_files])
  have h4 := h ("stylistic_voice.md", "Communication patterns and signature style")
    (by simp [required_files])
  have h5 := h ("runtime_observations.jsonl", "Living memory stream and insights")
    (by simp [required_files])
  simp only [validate_all, validate_file_structure, validate_content_structure,
    generate_recommendations, required_files, List.map_cons, List.map_nil,
    List.filterMap_cons, List.filterMap_nil, List.all_cons, List.all_nil] at *
  simp only [h1, h2, h3, h4, h5]

/-- C1, counterexample: a pack identical to the all-valid scenario except
that the technical domains document has 10 words.  Every artifact exists
and is readable, every content validation is valid, the word-count
warning is present and surfaces as the one recommendation, yet
validate_all returns overall status VALID, not VALID_WITH_WARNINGS: the
warning does not change the status. -/
theorem c1_counterexample :
    (∀ x ∈ (validate_all (fun _ => none) c1pack).file_structure,
        x.2.existsB = true ∧ x.2.readable = true) ∧
    (∀ x ∈ (validate_all (fun _ => none) c1pack).content_validation,
        x.2.valid = true) ∧
    (∃ x ∈ (validate_all (fun _ => none) c1pack).content_validation,
        x.2.warnings ≠ []) ∧
    (validate_all (fun _ => none) c1pack).recommendations =
      ["technical_domains.md: Technical domains seem underdeveloped"] ∧
    (validate_all (fun _ => none) c1pack).overall_status = "VALID" := by
  decide

/-- C1, amended: for every pack in which all required artifacts exist and
are readable and every per-artifact validation has valid equal to true,
validate_all returns overall status VALID, whether or not any warnings
are present; warnings never move the status to VALID_WITH_WARNINGS,
because the status only looks at the three pass flags and the
cross-reference flag is always true. -/
theorem c1_all_valid_gives_valid (j : JsonOracle) (p : String → Option FileEntry)
    (hfs : ∀ x ∈ (validate_all j p).file_structure,
        x.2.existsB = true ∧ x.2.readable = true)
    (hcv : ∀ x ∈ (validate_all j p).content_validation, x.2.valid = true) :
    (validate_all j p).overall_status = "VALID" := by
  have hfs' : ∀ x ∈ (validate_file_structure p).1,
      x.2.existsB = true ∧ x.2.readable = true := hfs
  have hcv' : ∀ x ∈ (validate_content_structure j p).1, x.2.valid = true := hcv
  have hfs2 : (validate_file_structure p).2 = true := by
    apply List.all_eq_true.mpr
    intro nd hnd
    have hmem : (nd.1, fileResultFor (p nd.1) nd.2) ∈ (validate_file_structure p).1 :=
      List.mem_map.mpr ⟨nd, hnd, rfl⟩
    obtain ⟨h1, h2⟩ := hfs' _ hmem
    exact fileOkFlag_of_result (p nd.1) nd.2 h1 h2
  have hcv2 : (validate_content_structure j p).2 = true := by
    apply List.all_eq_true.mpr
    intro nd hnd
    cases hp : p nd.1 with
    | none => simp
    | some e =>
      have hmem : (nd.1, contentValidationFor j nd.1 e) ∈ (validate_content_structure j p).1 :=
        List.mem_filterMap.mpr ⟨nd, hnd, by rw [hp]; rfl⟩
      have := hcv' _ hmem
      simpa using this
  show (if (validate_file_structure p).2 && (validate_content_structure j p).2 &&
          validate_cross_references.2 then "VALID"
        else if (validate_file_structure p).2 && (validate_content_structure j p).2 then
          "VALID_WITH_WARNINGS"
        else "INVALID") = "VALID"
  rw [hfs2, hcv2]
  rfl

/-- C1, witness of the amended claim at the counterexample pack. -/
theorem c1_all_valid_gives_valid_witness :
    (validate_all (fun _ => none) c1pack).overall_status = "VALID" :=
  c1_all_valid_gives_valid (fun _ => none) c1pack (by decide) (by decide)

/-- C2, failing input of the code bug: two well-formed JSON lines
separated by one blank line.  Every non-blank line parses, so the claim
expects valid true, zero invalid entries and valid_json_lines 2; the
code does report valid_json_lines 2 and records no invalid-line warning,
but counts the blank line in the invalid_lines metric and therefore
returns valid false with the error message about one invalid JSON line. -/
theorem c2_blank_line_counted_invalid :
    (validate_jsonl_structure (fun _ => none) "{}\n\n{}").valid = false ∧
    (validate_jsonl_structure (fun _ => none) "{}\n\n{}").warnings = [] ∧
    (validate_jsonl_structure (fun _ => none) "{}\n\n{}").metrics =
      [("total_lines", 3), ("valid_json_lines", 2), ("invalid_lines", 1)] ∧
    (validate_jsonl_structure (fun _ => none) "{}\n\n{}").error =
      some "1 invalid JSON lines" := by
  decide

/-- C3, failing input of the code bug: the empty event log.  The claim
expects valid true with no error for content with zero non-blank lines,
but splitting the stripped empty content on newlines yields one blank
line, which the loop skips while the invalid_lines arithmetic counts it,
so the code returns valid false with an error naming one invalid JSON
line. -/
theorem c3_empty_log_reported_invalid :
    validate_jsonl_structure (fun _ => none) "" =
      { valid := false, warnings := [],
        metrics := [("total_lines", 1), ("valid_json_lines", 0), ("invalid_lines", 1)],
        error := some "1 invalid JSON lines" } := by
  decide

/-- C4, failing input of the code bug: an event log holding one valid
line, one blank line and one malformed line is invalid, and replacing
the malformed line with a well-formed one leaves the artifact invalid,
against the claim that fixing every malformed line flips it to valid:
the blank line still counts in the invalid_lines metric. -/
theorem c4_fix_malformed_still_invalid :
    (validate_jsonl_structure
        (fun s => if s == "oops" then some "Expecting value" else none)
        "{}\n\noops").valid = false ∧
    (validate_jsonl_structure
        (fun s => if s == "oops" then some "Expecting value" else none)
        "{}\n\n{}").valid = false := by
  decide

/-- C5: writing the report file into the pack directory does not change
any validation outcome, since the validator reads the pack only at the
five required artifact names and the report name is not one of them;
with validation a pure function of those contents, a second run over an
unmodified pack returns the identical report. -/
theorem c5_report_write_ignored (j : JsonOracle) (p : String → Option FileEntry)
    (e : FileEntry) :
    validate_all j (packWithReportFile p e) = validate_all j p := by
  apply validate_all_congr
  intro nd hnd
  fin_cases hnd <;> rfl

/-- C6: when none of the five required artifacts exists, validate_all
returns overall status INVALID and the file structure results list all
five artifacts with an exists flag of false. -/
theorem c6_all_missing_invalid (j : JsonOracle) (p : String → Option FileEntry)
    (h : ∀ nd ∈ required_files, p nd.1 = none) :
    (validate_all j p).overall_status = "INVALID" ∧
    (validate_all j p).file_structure.map (fun x => (x.1, x.2.existsB)) =
      [("persona.md", false), ("relationship_dynamics.md", false),
       ("technical_domains.md", false), ("stylistic_voice.md", false),
       ("runtime_observations.jsonl", false)] := by
  have h1 := h ("persona.md", "Core identity and self-understanding")
    (by simp [required_files])
  have h2 := h ("relationship_dynamics.md", "Human bonds and collaborative rapport")
    (by simp [required_files])
  have h3 := h ("technical_domains.md", "Expertise, preferences, and knowledge base")
    (by simp [required_files])
  have h4 := h ("stylistic_voice.md", "Communication patterns and signature style")
    (by simp [required_files])
  have h5 := h ("runtime_observations.jsonl", "Living memory stream and insights")
    (by simp [required_files])
  constructor
  · simp [validate_all, validate_file_structure, validate_content_structure,
      required_files, h1, h2, h3, h4, h5, fileOkFlag]
  · simp [validate_all, validate_file_structure, required_files,
      h1, h2, h3, h4, h5, fileResultFor]

/-- C6, witness at the empty pack. -/
theorem c6_all_missing_invalid_witness :
    (validate_all (fun _ => none) (fun _ => none)).overall_status = "INVALID" ∧
    (validate_all (fun _ => none) (fun _ => none)).file_structure.map
        (fun x => (x.1, x.2.existsB)) =
      [("persona.md", false), ("relationship_dynamics.md", false),
       ("technical_domains.md", false), ("stylistic_voice.md", false),
       ("runtime_observations.jsonl", false)] :=
  c6_all_missing_invalid (fun _ => none) (fun _ => none) (fun _ _ => rfl)

/-- C7: the markdown structure check never returns valid false for any
file name and content, and the missing-main-header warning is present
exactly when the stripped content does not start with a hash mark; the
file-specific checks only ever append warnings. -/
theorem c7_markdown_never_invalid (filename content : String) :
    (validate_markdown_structure filename content).valid = true ∧
    ("Missing main header" ∈ (validate_markdown_structure filename content).warnings ↔
      startsWithHash (pyStrip content) = false) := by
  refine ⟨rfl, ?_⟩
  cases hB : startsWithHash (pyStrip content) with
  | true =>
    simp [validate_markdown_structure, headerWarnings, hB,
      mainHeaderMsg_not_specific filename content]
  | false =>
    simp [validate_markdown_structure, headerWarnings, hB]

/-- C8: the recommendation list of every run equals the concatenation of
the under-100-bytes notes, in artifact enumeration order, with every
warning message of every content validation entry, in
artifact-then-warning order, without deduplication. -/
theorem c8_recommendations_flatten (j : JsonOracle) (p : String → Option FileEntry) :
    (validate_all j p).recommendations = recommendationsSpec (validate_all j p) := by
  show generate_recommendations (validate_file_structure p).1
      (validate_content_structure j p).1 = _
  rw [recommendationsSpec, generate_recommendations, sizeRecs_eq, warnRecs_eq]
  rfl

/-- C9: a read failure on one artifact is captured as that artifact's
result, an invalid entry carrying the error message, and every other
present artifact still receives an entry: the failure is local and the
report is complete. -/
theorem c9_read_error_local (j : JsonOracle) (p : String → Option FileEntry)
    (name : String) (entry : FileEntry) (e : String)
    (hmem : name ∈ required_files.map Prod.fst)
    (hp : p name = some entry) (hre : entry.readRes = .error e) :
    (name, ({ valid := false, warnings := [], metrics := [], error := some e } :
        ContentValidation)) ∈ (validate_all j p).content_validation ∧
    ∀ m ∈ required_files.map Prod.fst, (p m).isSome = true →
      ∃ v, (m, v) ∈ (validate_all j p).content_validation := by
  constructor
  · obtain ⟨nd, hnd, hfst⟩ := List.mem_map.mp hmem
    show _ ∈ (validate_content_structure j p).1
    apply List.mem_filterMap.mpr
    refine ⟨nd, hnd, ?_⟩
    rw [hfst, hp]
    simp [contentValidationFor, hre]
  · intro m hm hsome
    obtain ⟨nd, hnd, hfst⟩ := List.mem_map.mp hm
    obtain ⟨em, hem⟩ := Option.isSome_iff_exists.mp hsome
    refine ⟨contentValidationFor j m em, ?_⟩
    show _ ∈ (validate_content_structure j p).1
    exact List.mem_filterMap.mpr ⟨nd, hnd, by rw [hfst, hem]; rfl⟩

/-- C9, witness: in a pack whose persona document read fails with a
permission error while the event log reads fine, the persona entry
captures the error and the event log still has an entry. -/
theorem c9_read_error_local_witness :
    ("persona.md",
      ({ valid := false, warnings := [], metrics := [], error := some "Permission denied" } :
        ContentValidation)) ∈
      (validate_all (fun _ => none) c9pack).content_validation ∧
    ∃ v, ("runtime_observations.jsonl", v) ∈
      (validate_all (fun _ => none) c9pack).content_validation := by
  have h := c9_read_error_local (fun _ => none) c9pack "persona.md"
    ⟨.ok (true, 120), .error "Permission denied"⟩ "Permission denied"
    (by decide) rfl rfl
  exact ⟨h.1, h.2 "runtime_observations.jsonl" (by decide) rfl⟩

/-- C10: a required artifact that does not exist gets no entry in the
content validation mapping, yet the recommendations still carry the
expansion note for it, because its recorded size is 0 and therefore
under the 100-byte threshold. -/
theorem c10_missing_artifact (j : JsonOracle) (p : String → Option FileEntry)
    (name : String) (hmem : name ∈ required_files.map Prod.fst)
    (hp : p name = none) :
    (∀ v : ContentValidation, (name, v) ∉ (validate_all j p).content_validation) ∧
    ("Consider expanding " ++ name ++ " - currently very brief") ∈
      (validate_all j p).recommendations := by
  constructor
  · intro v hv
    have hv' : (name, v) ∈ (validate_content_structure j p).1 := hv
    obtain ⟨nd, hnd, heq⟩ := List.mem_filterMap.mp hv'
    cases hpnd : p nd.1 with
    | none => rw [hpnd] at heq; exact Option.noConfusion heq
    | some em =>
      rw [hpnd] at heq
      have hfst : nd.1 = name := congrArg Prod.fst (Option.some.inj heq)
      rw [hfst] at hpnd
      rw [hp] at hpnd
      exact Option.noConfusion hpnd
  · obtain ⟨nd, hnd, hfst⟩ := List.mem_map.mp hmem
    have hmem2 : (name, fileResultFor (p name) nd.2) ∈ (validate_file_structure p).1 := by
      apply List.mem_map.mpr
      refine ⟨nd, hnd, ?_⟩
      rw [hfst]
    show _ ∈ generate_recommendations (validate_file_structure p).1
      (validate_content_structure j p).1
    rw [generate_recommendations]
    apply List.mem_append_left
    rw [sizeRecs_eq]
    apply List.mem_map.mpr
    refine ⟨(name, fileResultFor (p name) nd.2), List.mem_filter.mpr ⟨hmem2, ?_⟩, rfl⟩
    rw [hp]
    rfl

/-- C10, witness: in a pack holding only the event log, the persona
document has no content validation entry and the recommendations carry
its expansion note. -/
theorem c10_missing_artifact_witness :
    ("Consider expanding " ++ "persona.md" ++ " - currently very brief") ∈
      (validate_all (fun _ => none) c10pack).recommendations :=
  (c10_missing_artifact (fun _ => none) c10pack "persona.md" (by decide) rfl).2

end SoulSketch
